import Mathlib

/-!
Shallow embedding of the push-up tracking core of
`src/body-measurement.js` (class `PoseAI`).

The per-frame pipeline (lines 1233-1236 of the source) is
`updateArmAngle(pose); updateBackAngle(pose); checkPushupPositions();`
acting on the instance fields
`reps, elbowAngle, backAngle, upPosition, downPosition, highlightBack,
backWarningGiven, voiceFeedbackEnabled`.

Numbers are modelled as exact rationals.  The two `atan2`-difference
angles (in degrees) computed by `updateArmAngle` / `updateBackAngle` are
transcendental functions of the keypoint coordinates, so a `Frame` below
carries their values (`armAngleMeas`, `backAngleMeas`) as inputs together
with the keypoint scores the source tests against `0.3`; everything the
source does with those values — the confidence-gated stores, the JavaScript
`% 180` remainder, the posture classification and the two phase rules —
is embedded exactly.
-/

namespace WorkingModel

/-- JavaScript remainder `a % b`, which is `a - b * trunc (a / b)` with
the quotient truncated toward zero, so the result keeps the sign of the
dividend `a` (a remainder, not a Euclidean modulus).  The quotient
`trunc (a / b)` is `Int.tdiv` (toward-zero integer division) of the
integer fraction `(a.num * b.den) / (a.den * b.num)` representing
`a / b`, and the result is assembled over the common denominator
`a.den * b.den`; the lemma `jsRem_eq` below identifies this with the
textbook formula `a - b * trunc (a / b)`. -/
def jsRem (a b : ℚ) : ℚ :=
  let t := Int.tdiv (a.num * b.den) (a.den * b.num)
  Rat.divInt (a.num * b.den - t * b.num * a.den) (a.den * b.den)

/-- Data of one processed frame.  The six scores are the keypoint
confidence scores the source compares against `0.3`
(wrist/elbow/shoulder for the arm angle, knee/hip/shoulder for the back
angle).  `armAngleMeas` and `backAngleMeas` are the `atan2`-difference
angles in degrees computed at lines 1277-1285 and 1297-1305 of the
source, carried as frame inputs.  `poseAvailable`, `noseY`, `elbowY`
model `getCurrentPose()` and the keypoint y-coordinates used in the
`elbowAboveNose` test (line 1341). -/
structure Frame where
  wristScore : ℚ
  elbowScore : ℚ
  shoulderScore : ℚ
  kneeScore : ℚ
  hipScore : ℚ
  armAngleMeas : ℚ
  backAngleMeas : ℚ
  poseAvailable : Bool
  noseY : ℚ
  elbowY : ℚ
  deriving Repr, DecidableEq

/-- Mutable instance fields of `PoseAI` touched by the push-up pipeline
(constructor lines 796-802 and 808). -/
structure PState where
  reps : ℕ
  elbowAngle : ℚ
  backAngle : ℚ
  upPosition : Bool
  downPosition : Bool
  highlightBack : Bool
  backWarningGiven : Bool
  voiceFeedbackEnabled : Bool
  deriving Repr, DecidableEq

/-- Initial field values from the `PoseAI` constructor:
`reps = 0, elbowAngle = 999, backAngle = 0`, all flags false,
`voiceFeedbackEnabled = true`. -/
def initState : PState :=
  { reps := 0
    elbowAngle := 999
    backAngle := 0
    upPosition := false
    downPosition := false
    highlightBack := false
    backWarningGiven := false
    voiceFeedbackEnabled := true }

/-- The phase of the repetition state machine as the spec names it,
read off the two position flags. -/
inductive Phase where
  | Neutral : Phase
  | Up : Phase
  | Down : Phase
  deriving Repr, DecidableEq

/-- Phase read-out: `downPosition` means `Down`, otherwise `upPosition`
means `Up`, otherwise `Neutral`. -/
def phase (s : PState) : Phase :=
  if s.downPosition then Phase.Down
  else if s.upPosition then Phase.Up
  else Phase.Neutral

/-- Source `updateArmAngle` (lines 1272-1290): compute the arm angle and
store it into `elbowAngle` only when wrist, elbow and shoulder scores all
exceed `0.3`. -/
def updateArmAngle (s : PState) (f : Frame) : PState :=
  if f.wristScore > mkRat 3 10 ∧ f.elbowScore > mkRat 3 10 ∧ f.shoulderScore > mkRat 3 10 then
    { s with elbowAngle := f.armAngleMeas }
  else s

/-- Source `updateBackAngle` (lines 1292-1323): reduce the back angle
with the JavaScript remainder `% 180`, store it only when knee, hip and
shoulder scores all exceed `0.3`, then classify the (possibly stale)
stored `backAngle`: straight iff `backAngle < 20 || backAngle > 160`.
On an unacceptable classification, a spoken warning fires exactly when
`backWarningGiven` is not yet set and voice feedback is enabled, and
then sets `backWarningGiven`.  The returned `Bool` records whether the
spoken warning fired this frame.  Nothing in this function ever clears
`backWarningGiven`. -/
def updateBackAngle (s : PState) (f : Frame) : PState × Bool :=
  let backAngle := jsRem f.backAngleMeas 180
  let s1 :=
    if f.kneeScore > mkRat 3 10 ∧ f.hipScore > mkRat 3 10 ∧ f.shoulderScore > mkRat 3 10 then
      { s with backAngle := backAngle }
    else s
  if s1.backAngle < 20 ∨ s1.backAngle > 160 then
    ({ s1 with highlightBack := false }, false)
  else
    if s1.backWarningGiven = false ∧ s1.voiceFeedbackEnabled = true then
      ({ s1 with highlightBack := true, backWarningGiven := true }, true)
    else
      ({ s1 with highlightBack := true }, false)

/-- The `elbowAboveNose` test of line 1341: `getCurrentPose()` must be
truthy and the nose keypoint's y must exceed the left elbow keypoint's y. -/
def elbowAboveNose (f : Frame) : Prop :=
  f.poseAvailable = true ∧ f.noseY > f.elbowY

instance (f : Frame) : Decidable (elbowAboveNose f) := by
  unfold elbowAboveNose; infer_instance

/-- Guard of the up-position rule (line 1327):
`elbowAngle > 170 && elbowAngle < 200`. -/
def upGuard (s : PState) : Prop :=
  s.elbowAngle > 170 ∧ s.elbowAngle < 200

instance (s : PState) : Decidable (upGuard s) := by
  unfold upGuard; infer_instance

/-- Guard of the down-position rule (line 1343): straight back
(`highlightBack == false`), `elbowAboveNose`, and
`|elbowAngle| ∈ (70, 100)`. -/
def downGuard (s : PState) (f : Frame) : Prop :=
  s.highlightBack = false ∧ elbowAboveNose f ∧
    |s.elbowAngle| > 70 ∧ |s.elbowAngle| < 100

instance (s : PState) (f : Frame) : Decidable (downGuard s f) := by
  unfold downGuard; infer_instance

/-- First if-block of `checkPushupPositions` (lines 1327-1338): when the
elbow angle is in the up window, count a rep if currently in the down
position, then set `upPosition` and clear `downPosition`. -/
def upRule (s : PState) : PState :=
  if upGuard s then
    let s0 := if s.downPosition then { s with reps := s.reps + 1 } else s
    { s0 with upPosition := true, downPosition := false }
  else s

/-- Second if-block of `checkPushupPositions` (lines 1341-1349): when the
down guard holds, set `downPosition` and clear `upPosition`. -/
def downRule (s : PState) (f : Frame) : PState :=
  if downGuard s f then
    { s with downPosition := true, upPosition := false }
  else s

/-- Source `checkPushupPositions` (lines 1325-1350): the up rule runs
first, the down rule second, on the same frame. -/
def checkPushupPositions (s : PState) (f : Frame) : PState :=
  downRule (upRule s) f

/-- One full frame of processing (source lines 1233-1236):
`updateArmAngle`, then `updateBackAngle`, then `checkPushupPositions`.
The `Bool` records whether the spoken posture warning fired. -/
def processFrame (s : PState) (f : Frame) : PState × Bool :=
  let s1 := updateArmAngle s f
  let sw := updateBackAngle s1 f
  (checkPushupPositions sw.1 f, sw.2)

/-- State effect of one frame. -/
def step (s : PState) (f : Frame) : PState :=
  (processFrame s f).1

/-- Process a list of frames in order. -/
def runFrames (s : PState) (fs : List Frame) : PState :=
  fs.foldl step s

/-- Number of spoken posture warnings fired along a run. -/
def warnings : PState → List Frame → ℕ
  | _, [] => 0
  | s, f :: fs =>
      (if (processFrame s f).2 then 1 else 0) + warnings (processFrame s f).1 fs

/-- Source `resetWorkout` (lines 1392-1408): reset the push-up fields to
their constructor values.  `voiceFeedbackEnabled` is not touched. -/
def resetWorkout (s : PState) : PState :=
  { s with reps := 0
           elbowAngle := 999
           backAngle := 0
           upPosition := false
           downPosition := false
           highlightBack := false
           backWarningGiven := false }

/-- User-visible actions on the tracker: processing one frame, or
resetting the workout. -/
inductive Action where
  | frame : Frame → Action
  | reset : Action

/-- Apply one action. -/
def applyAction (s : PState) : Action → PState
  | Action.frame f => step s f
  | Action.reset => resetWorkout s

/-- Run a sequence of actions from a state. -/
def runActions (s : PState) (acts : List Action) : PState :=
  acts.foldl applyAction s

/-- Elbow-side confidence test of `updateArmAngle` (line 1287). -/
def confidentElbow (f : Frame) : Prop :=
  f.wristScore > mkRat 3 10 ∧ f.elbowScore > mkRat 3 10 ∧ f.shoulderScore > mkRat 3 10

instance (f : Frame) : Decidable (confidentElbow f) := by
  unfold confidentElbow; infer_instance

/-- Back-side confidence test of `updateBackAngle` (line 1308). -/
def confidentBack (f : Frame) : Prop :=
  f.kneeScore > mkRat 3 10 ∧ f.hipScore > mkRat 3 10 ∧ f.shoulderScore > mkRat 3 10

instance (f : Frame) : Decidable (confidentBack f) := by
  unfold confidentBack; infer_instance


/-- Sample frame satisfying the down guard: confident scores, arm angle
in the down window, straight-back measurement, pose available with the
nose below the elbow on screen (larger y). -/
def frameDown : Frame :=
  { wristScore := mkRat 9 10
    elbowScore := mkRat 9 10
    shoulderScore := mkRat 9 10
    kneeScore := mkRat 9 10
    hipScore := mkRat 9 10
    armAngleMeas := 80
    backAngleMeas := 10
    poseAvailable := true
    noseY := 5
    elbowY := 1 }

/-- Sample frame in the up window (`elbowAngle = 185`). -/
def frameUp185 : Frame :=
  { frameDown with armAngleMeas := 185, poseAvailable := false }

/-- Sample state in the down position with a straight back. -/
def sDown : PState :=
  { reps := 3
    elbowAngle := 80
    backAngle := 10
    upPosition := false
    downPosition := true
    highlightBack := false
    backWarningGiven := false
    voiceFeedbackEnabled := true }

/-- Sample state with an unacceptable (bent) back classification. -/
def sBentBack : PState :=
  { sDown with highlightBack := true, downPosition := false }

lemma updateArmAngle_fields (s : PState) (f : Frame) :
    (updateArmAngle s f).reps = s.reps ∧
    (updateArmAngle s f).backAngle = s.backAngle ∧
    (updateArmAngle s f).upPosition = s.upPosition ∧
    (updateArmAngle s f).downPosition = s.downPosition ∧
    (updateArmAngle s f).highlightBack = s.highlightBack ∧
    (updateArmAngle s f).backWarningGiven = s.backWarningGiven ∧
    (updateArmAngle s f).voiceFeedbackEnabled = s.voiceFeedbackEnabled := by
  unfold updateArmAngle
  split <;> simp

lemma updateBackAngle_fields (s : PState) (f : Frame) :
    (updateBackAngle s f).1.reps = s.reps ∧
    (updateBackAngle s f).1.elbowAngle = s.elbowAngle ∧
    (updateBackAngle s f).1.upPosition = s.upPosition ∧
    (updateBackAngle s f).1.downPosition = s.downPosition ∧
    (updateBackAngle s f).1.voiceFeedbackEnabled = s.voiceFeedbackEnabled := by
  unfold updateBackAngle
  dsimp only
  repeat' split
  all_goals simp

lemma upRule_fields (s : PState) :
    (upRule s).elbowAngle = s.elbowAngle ∧
    (upRule s).backAngle = s.backAngle ∧
    (upRule s).highlightBack = s.highlightBack ∧
    (upRule s).backWarningGiven = s.backWarningGiven ∧
    (upRule s).voiceFeedbackEnabled = s.voiceFeedbackEnabled := by
  unfold upRule
  repeat' split
  all_goals simp

lemma downRule_fields (s : PState) (f : Frame) :
    (downRule s f).reps = s.reps ∧
    (downRule s f).elbowAngle = s.elbowAngle ∧
    (downRule s f).backAngle = s.backAngle ∧
    (downRule s f).highlightBack = s.highlightBack ∧
    (downRule s f).backWarningGiven = s.backWarningGiven ∧
    (downRule s f).voiceFeedbackEnabled = s.voiceFeedbackEnabled := by
  unfold downRule
  split <;> simp

lemma phase_eq_down_iff (s : PState) :
    phase s = Phase.Down ↔ s.downPosition = true := by
  unfold phase
  rcases hd : s.downPosition <;> rcases hu : s.upPosition <;> simp

/-- Claim C3: the down-position transition fires only when the straight
back, `elbowAboveNose` and `|elbowAngle| ∈ (70,100)` conditions all hold
together; if any single one fails, the down rule leaves the whole state
(and in particular the phase) unchanged. -/
theorem downRule_requires_all_three (s : PState) (f : Frame)
    (h : ¬ s.highlightBack = false ∨ ¬ elbowAboveNose f ∨
      ¬ (|s.elbowAngle| > 70 ∧ |s.elbowAngle| < 100)) :
    downRule s f = s ∧ phase (downRule s f) = phase s := by
  have hg : ¬ downGuard s f := by
    unfold downGuard
    tauto
  have he : downRule s f = s := by
    unfold downRule
    simp [hg]
  exact ⟨he, by rw [he]⟩

/-- Witness for claim C3 at a concrete bent-back state: the down rule
does nothing even though the other two conditions hold. -/
theorem downRule_requires_all_three_witness :
    downRule sBentBack frameDown = sBentBack ∧
      phase (downRule sBentBack frameDown) = phase sBentBack :=
  downRule_requires_all_three sBentBack frameDown (Or.inl (by decide))

/-- Claim C4: after `updateBackAngle`, the back is classified straight
(`highlightBack = false`) iff the current stored `backAngle` satisfies
`backAngle < 20 ∨ backAngle > 160`. -/
theorem back_straight_iff (s : PState) (f : Frame) :
    (updateBackAngle s f).1.highlightBack = false ↔
      ((updateBackAngle s f).1.backAngle < 20 ∨
        (updateBackAngle s f).1.backAngle > 160) := by
  unfold updateBackAngle
  dsimp only
  repeat' split
  all_goals simp_all

/-- Claim C5 counterexample (negation of the claimed existential): no
machine state and frame make the up rule and the down rule fire in the
same frame, because `elbowAngle > 170` forces `|elbowAngle| > 170`,
contradicting the down window `|elbowAngle| < 100`. -/
theorem up_down_guards_never_both :
    ¬ ∃ (s : PState) (f : Frame), upGuard s ∧ downGuard s f := by
  rintro ⟨s, f, ⟨h1, _⟩, _, _, _, h4⟩
  have hle : s.elbowAngle ≤ |s.elbowAngle| := le_abs_self _
  linarith

/-- Claim C5 (amended): the two rules can never both fire in the same
frame; whenever the down rule's guard holds, the up rule's guard fails
and the frame's resulting phase is Down, the down rule being evaluated
second. -/
theorem down_rule_overrides (s : PState) (f : Frame) (h : downGuard s f) :
    ¬ upGuard s ∧ phase (checkPushupPositions s f) = Phase.Down := by
  have hnu : ¬ upGuard s := by
    rintro ⟨h1, _⟩
    have hle : s.elbowAngle ≤ |s.elbowAngle| := le_abs_self _
    have := h.2.2.2
    linarith
  have hup : upRule s = s := by
    unfold upRule
    simp [hnu]
  refine ⟨hnu, ?_⟩
  unfold checkPushupPositions
  rw [hup]
  unfold downRule
  simp [h, phase]

/-- Witness for claim C5 (amended) at a concrete straight-back state in
the down window. -/
theorem down_rule_overrides_witness :
    ¬ upGuard sDown ∧ phase (checkPushupPositions sDown frameDown) = Phase.Down :=
  down_rule_overrides sDown frameDown (by decide)

/-- Claim C8: `resetWorkout` is idempotent and yields the zeroed state:
phase Neutral, zero reps, straight back classification, no pending
warning. -/
theorem resetWorkout_idempotent (s : PState) :
    resetWorkout (resetWorkout s) = resetWorkout s ∧
    (resetWorkout s).reps = 0 ∧
    phase (resetWorkout s) = Phase.Neutral ∧
    (resetWorkout s).highlightBack = false ∧
    (resetWorkout s).backWarningGiven = false :=
  ⟨rfl, rfl, rfl, rfl, rfl⟩

lemma upRule_reps (s : PState) :
    (upRule s).reps = s.reps ∨ (upRule s).reps = s.reps + 1 := by
  unfold upRule
  repeat' split
  all_goals simp

lemma step_reps_cases (s : PState) (f : Frame) :
    (step s f).reps = s.reps ∨ (step s f).reps = s.reps + 1 := by
  have h1 := (updateArmAngle_fields s f).1
  have h2 := (updateBackAngle_fields (updateArmAngle s f) f).1
  have h3 := (downRule_fields (upRule ((updateBackAngle (updateArmAngle s f) f).1)) f).1
  have h4 := upRule_reps ((updateBackAngle (updateArmAngle s f) f).1)
  have hstep : step s f =
      downRule (upRule ((updateBackAngle (updateArmAngle s f) f).1)) f := rfl
  rw [hstep, h3]
  rw [h2, h1] at h4
  exact h4

lemma reps_le_step (s : PState) (f : Frame) : s.reps ≤ (step s f).reps := by
  rcases step_reps_cases s f with h | h <;> omega

lemma reps_le_runFrames (s : PState) (fs : List Frame) :
    s.reps ≤ (runFrames s fs).reps := by
  induction fs generalizing s with
  | nil => exact le_refl _
  | cons f fs ih =>
      have h1 := reps_le_step s f
      have h2 := ih (step s f)
      have hr : runFrames s (f :: fs) = runFrames (step s f) fs := rfl
      rw [hr]
      omega

/-- Claim C10: one frame of processing either leaves `reps` unchanged or
increments it by exactly one, and over any frame sequence without a
reset, `reps` is monotonically non-decreasing. -/
theorem reps_increment_and_monotone (s : PState) (f : Frame) (fs : List Frame) :
    ((step s f).reps = s.reps ∨ (step s f).reps = s.reps + 1) ∧
      s.reps ≤ (runFrames s fs).reps :=
  ⟨step_reps_cases s f, reps_le_runFrames s fs⟩

lemma step_flags_exclusive (s : PState) (f : Frame)
    (h : ¬ (s.upPosition = true ∧ s.downPosition = true)) :
    ¬ ((step s f).upPosition = true ∧ (step s f).downPosition = true) := by
  have h1 := updateArmAngle_fields s f
  have h2 := updateBackAngle_fields (updateArmAngle s f) f
  have hstep : step s f =
      downRule (upRule ((updateBackAngle (updateArmAngle s f) f).1)) f := rfl
  rw [hstep]
  unfold downRule upRule
  repeat' split
  all_goals simp_all

lemma runActions_flags_exclusive (acts : List Action) : ∀ s : PState,
    ¬ (s.upPosition = true ∧ s.downPosition = true) →
    ¬ ((runActions s acts).upPosition = true ∧
       (runActions s acts).downPosition = true) := by
  induction acts with
  | nil => intro s hs; exact hs
  | cons a acts ih =>
      intro s hs
      have hr : runActions s (a :: acts) = runActions (applyAction s a) acts := rfl
      rw [hr]
      apply ih
      cases a with
      | frame f => exact step_flags_exclusive s f hs
      | reset => simp [applyAction, resetWorkout]

/-- Claim C9: in every state reachable from the initial state by any
sequence of processed frames and workout resets, the up-position and
down-position flags are never both set, so the phase read-out is
well-defined. -/
theorem flags_never_both_set (acts : List Action) :
    ¬ ((runActions initState acts).upPosition = true ∧
       (runActions initState acts).downPosition = true) :=
  runActions_flags_exclusive acts initState (by simp [initState])

lemma step_from_down_in_window (s : PState) (f : Frame)
    (hd : s.downPosition = true)
    (h1 : (updateArmAngle s f).elbowAngle > 170)
    (h2 : (updateArmAngle s f).elbowAngle < 200) :
    (step s f).reps = s.reps + 1 ∧ (step s f).upPosition = true ∧
      (step s f).downPosition = false := by
  have e2 : ((updateBackAngle (updateArmAngle s f) f).1).elbowAngle =
      (updateArmAngle s f).elbowAngle := (updateBackAngle_fields _ f).2.1
  have r2 : ((updateBackAngle (updateArmAngle s f) f).1).reps =
      (updateArmAngle s f).reps := (updateBackAngle_fields _ f).1
  have d2 : ((updateBackAngle (updateArmAngle s f) f).1).downPosition =
      (updateArmAngle s f).downPosition := (updateBackAngle_fields _ f).2.2.2.1
  have r1 : (updateArmAngle s f).reps = s.reps := (updateArmAngle_fields s f).1
  have d1 : (updateArmAngle s f).downPosition = s.downPosition :=
    (updateArmAngle_fields s f).2.2.2.1
  have hg : upGuard ((updateBackAngle (updateArmAngle s f) f).1) :=
    ⟨by rw [e2]; exact h1, by rw [e2]; exact h2⟩
  have hd2 : ((updateBackAngle (updateArmAngle s f) f).1).downPosition = true := by
    rw [d2, d1, hd]
  have hup : (upRule ((updateBackAngle (updateArmAngle s f) f).1)).reps =
        ((updateBackAngle (updateArmAngle s f) f).1).reps + 1 ∧
      (upRule ((updateBackAngle (updateArmAngle s f) f).1)).upPosition = true ∧
      (upRule ((updateBackAngle (updateArmAngle s f) f).1)).downPosition = false := by
    unfold upRule
    simp [hg, hd2]
  have he : (upRule ((updateBackAngle (updateArmAngle s f) f).1)).elbowAngle =
      (updateArmAngle s f).elbowAngle := by
    rw [(upRule_fields _).1, e2]
  have hnd : ¬ downGuard (upRule ((updateBackAngle (updateArmAngle s f) f).1)) f := by
    rintro ⟨_, _, _, habs⟩
    have hle : (upRule ((updateBackAngle (updateArmAngle s f) f).1)).elbowAngle ≤
        |(upRule ((updateBackAngle (updateArmAngle s f) f).1)).elbowAngle| := le_abs_self _
    rw [he] at hle habs
    linarith
  have hstep : step s f =
      downRule (upRule ((updateBackAngle (updateArmAngle s f) f).1)) f := rfl
  have hdr : downRule (upRule ((updateBackAngle (updateArmAngle s f) f).1)) f =
      upRule ((updateBackAngle (updateArmAngle s f) f).1) := by
    unfold downRule
    simp [hnd]
  rw [hstep, hdr]
  exact ⟨by rw [hup.1, r2, r1], hup.2.1, hup.2.2⟩

lemma step_in_up_window_keeps (s : PState) (g : Frame)
    (hd : s.downPosition = false)
    (hc : confidentElbow g) (h1 : g.armAngleMeas > 170) (h2 : g.armAngleMeas < 200) :
    (step s g).reps = s.reps ∧ (step s g).downPosition = false := by
  have harm : updateArmAngle s g = { s with elbowAngle := g.armAngleMeas } := by
    unfold confidentElbow at hc
    unfold updateArmAngle
    simp [hc]
  have e2 : ((updateBackAngle (updateArmAngle s g) g).1).elbowAngle =
      g.armAngleMeas := by
    rw [(updateBackAngle_fields _ g).2.1, harm]
  have r2 : ((updateBackAngle (updateArmAngle s g) g).1).reps = s.reps := by
    rw [(updateBackAngle_fields _ g).1, harm]
  have d2 : ((updateBackAngle (updateArmAngle s g) g).1).downPosition = false := by
    rw [(updateBackAngle_fields _ g).2.2.2.1, harm]
    exact hd
  have hg : upGuard ((updateBackAngle (updateArmAngle s g) g).1) :=
    ⟨by rw [e2]; exact h1, by rw [e2]; exact h2⟩
  have hup : (upRule ((updateBackAngle (updateArmAngle s g) g).1)).reps = s.reps ∧
      (upRule ((updateBackAngle (updateArmAngle s g) g).1)).downPosition = false := by
    unfold upRule
    simp [hg, d2, r2]
  have he : (upRule ((updateBackAngle (updateArmAngle s g) g).1)).elbowAngle =
      g.armAngleMeas := by
    rw [(upRule_fields _).1, e2]
  have hnd : ¬ downGuard (upRule ((updateBackAngle (updateArmAngle s g) g).1)) g := by
    rintro ⟨_, _, _, habs⟩
    have hle : (upRule ((updateBackAngle (updateArmAngle s g) g).1)).elbowAngle ≤
        |(upRule ((updateBackAngle (updateArmAngle s g) g).1)).elbowAngle| := le_abs_self _
    rw [he] at hle habs
    linarith
  have hstep : step s g =
      downRule (upRule ((updateBackAngle (updateArmAngle s g) g).1)) g := rfl
  have hdr : downRule (upRule ((updateBackAngle (updateArmAngle s g) g).1)) g =
      upRule ((updateBackAngle (updateArmAngle s g) g).1) := by
    unfold downRule
    simp [hnd]
  rw [hstep, hdr]
  exact ⟨hup.1, hup.2⟩

lemma runFrames_in_up_window (fs : List Frame) : ∀ s : PState,
    s.downPosition = false →
    (∀ g ∈ fs, confidentElbow g ∧ g.armAngleMeas > 170 ∧ g.armAngleMeas < 200) →
    (runFrames s fs).reps = s.reps ∧ (runFrames s fs).downPosition = false := by
  induction fs with
  | nil => intro s hd _; exact ⟨rfl, hd⟩
  | cons g fs ih =>
      intro s hd hall
      obtain ⟨hc, h1, h2⟩ := hall g (List.mem_cons_self g fs)
      obtain ⟨hr, hd2⟩ := step_in_up_window_keeps s g hd hc h1 h2
      have hrest := ih (step s g) hd2 (fun g2 hg2 => hall g2 (List.mem_cons_of_mem g hg2))
      have hcons : runFrames s (g :: fs) = runFrames (step s g) fs := rfl
      rw [hcons, hrest.1, hr]
      exact ⟨rfl, hrest.2⟩

/-- Claim C1: from phase Down, one frame whose effective elbow angle lies
in `(170,200)` increments `reps` by exactly one and moves the phase to
Up; any number of further frames whose (confidently measured) elbow
angles stay in that window leave `reps` unchanged. -/
theorem rep_counted_once_per_down_up (s : PState) (f : Frame) (fs : List Frame)
    (hs : phase s = Phase.Down)
    (h1 : (updateArmAngle s f).elbowAngle > 170)
    (h2 : (updateArmAngle s f).elbowAngle < 200)
    (hfs : ∀ g ∈ fs, confidentElbow g ∧ g.armAngleMeas > 170 ∧ g.armAngleMeas < 200) :
    (step s f).reps = s.reps + 1 ∧ phase (step s f) = Phase.Up ∧
      (runFrames (step s f) fs).reps = (step s f).reps := by
  have hd : s.downPosition = true := (phase_eq_down_iff s).1 hs
  obtain ⟨hr, hu, hdn⟩ := step_from_down_in_window s f hd h1 h2
  refine ⟨hr, ?_, (runFrames_in_up_window fs (step s f) hdn hfs).1⟩
  unfold phase
  rw [hu, hdn]
  simp

/-- Witness for claim C1: a concrete down-phase state processed with an
`elbowAngle = 185` frame counts one rep and enters Up; two further such
frames leave the count alone. -/
theorem rep_counted_once_per_down_up_witness :
    (step sDown frameUp185).reps = sDown.reps + 1 ∧
      phase (step sDown frameUp185) = Phase.Up ∧
      (runFrames (step sDown frameUp185) [frameUp185, frameUp185]).reps =
        (step sDown frameUp185).reps :=
  rep_counted_once_per_down_up sDown frameUp185 [frameUp185, frameUp185]
    (by decide) (by decide) (by decide) (by decide)

/-- Sample frame with a bent-back measurement (`backAngle = 90`),
confident back scores, and no pose available for the down check. -/
def frameBack90 : Frame :=
  { frameDown with armAngleMeas := 0, backAngleMeas := 90, poseAvailable := false }

/-- Sample frame with a straight-back measurement (`backAngle = 10`). -/
def frameBack10 : Frame :=
  { frameBack90 with backAngleMeas := 10 }

/-- Sample frame whose six keypoint scores are all below the `0.3`
threshold. -/
def frameLowScores : Frame :=
  { frameDown with
      wristScore := mkRat 1 10
      elbowScore := mkRat 1 10
      shoulderScore := mkRat 1 10
      kneeScore := mkRat 1 10
      hipScore := mkRat 1 10
      armAngleMeas := 50
      backAngleMeas := 50 }

lemma updateBackAngle_warn (s : PState) (f : Frame) :
    ((updateBackAngle s f).2 = true →
      s.backWarningGiven = false ∧ (updateBackAngle s f).1.backWarningGiven = true) ∧
    (s.backWarningGiven = true →
      (updateBackAngle s f).2 = false ∧ (updateBackAngle s f).1.backWarningGiven = true) := by
  unfold updateBackAngle
  dsimp only
  repeat' split
  all_goals simp_all

lemma checkPushup_backWarningGiven (x : PState) (f : Frame) :
    (checkPushupPositions x f).backWarningGiven = x.backWarningGiven := by
  unfold checkPushupPositions
  rw [(downRule_fields (upRule x) f).2.2.2.2.1, (upRule_fields x).2.2.2.1]

lemma processFrame_warn (s : PState) (f : Frame) :
    ((processFrame s f).2 = true →
      s.backWarningGiven = false ∧ (processFrame s f).1.backWarningGiven = true) ∧
    (s.backWarningGiven = true →
      (processFrame s f).2 = false ∧ (processFrame s f).1.backWarningGiven = true) := by
  have h1 := (updateArmAngle_fields s f).2.2.2.2.2.1
  have h2 := updateBackAngle_warn (updateArmAngle s f) f
  have hfst : (processFrame s f).1 =
      checkPushupPositions ((updateBackAngle (updateArmAngle s f) f).1) f := rfl
  have hsnd : (processFrame s f).2 = (updateBackAngle (updateArmAngle s f) f).2 := rfl
  have hflag := checkPushup_backWarningGiven ((updateBackAngle (updateArmAngle s f) f).1) f
  constructor
  · intro hw
    rw [hsnd] at hw
    obtain ⟨ha, hb⟩ := h2.1 hw
    refine ⟨by rw [← h1]; exact ha, ?_⟩
    rw [hfst, hflag]
    exact hb
  · intro hs
    have hs2 : (updateArmAngle s f).backWarningGiven = true := by rw [h1]; exact hs
    obtain ⟨ha, hb⟩ := h2.2 hs2
    refine ⟨by rw [hsnd]; exact ha, ?_⟩
    rw [hfst, hflag]
    exact hb

/-- Claim C2 counterexample: from the initial state, five `backAngle=90`
frames produce exactly one spoken Warning, but after a straight
(`backAngle=10`) frame the `backWarningGiven` flag is still set — the
code never clears it on a return to straight posture — and the next
`backAngle=90` frame therefore produces no new Warning, contradicting
the claimed reset. -/
theorem warning_reset_on_straight_fails :
    warnings initState [frameBack90, frameBack90, frameBack90, frameBack90, frameBack90] = 1 ∧
    (runFrames initState
        [frameBack90, frameBack90, frameBack90, frameBack90, frameBack90,
          frameBack10]).backWarningGiven = true ∧
    (processFrame
        (runFrames initState
          [frameBack90, frameBack90, frameBack90, frameBack90, frameBack90,
            frameBack10]) frameBack90).2 = false := by
  decide

/-- Claim C2 (amended): the spoken posture Warning fires at most once per
workout segment — `backWarningGiven` is set by the first Warning and is
never cleared except by `resetWorkout`, so any frame sequence from a
state with the flag already set produces no Warning, and from a state
with the flag clear produces at most one. -/
theorem warning_at_most_once_per_reset (s : PState) (fs : List Frame) :
    warnings s fs ≤ if s.backWarningGiven then 0 else 1 := by
  induction fs generalizing s with
  | nil =>
      cases s.backWarningGiven <;> simp [warnings]
  | cons f fs ih =>
      have hpf := processFrame_warn s f
      have htail := ih (processFrame s f).1
      have hcons : warnings s (f :: fs) =
          (if (processFrame s f).2 then 1 else 0) + warnings (processFrame s f).1 fs := rfl
      cases hb : s.backWarningGiven with
      | true =>
          obtain ⟨hw, hf⟩ := hpf.2 hb
          rw [hf] at htail
          have h0 : warnings (processFrame s f).1 fs = 0 := by simpa using htail
          rw [hcons, hw, h0]
          simp
      | false =>
          cases hw : (processFrame s f).2 with
          | true =>
              have hf := (hpf.1 hw).2
              rw [hf] at htail
              have h0 : warnings (processFrame s f).1 fs = 0 := by simpa using htail
              rw [hcons, hw, h0]
              simp
          | false =>
              have hle : warnings (processFrame s f).1 fs ≤ 1 := by
                refine le_trans htail ?_
                cases (processFrame s f).1.backWarningGiven <;> simp
              rw [hcons, hw]
              simpa using hle

/-- Claim C7: a frame whose required keypoint scores do not all exceed
`0.3` leaves the corresponding stored angle unchanged: without elbow
confidence `elbowAngle` is stale, and without back confidence
`backAngle` is stale. -/
theorem stale_angle_invariant (s : PState) (f : Frame) :
    (¬ confidentElbow f → (step s f).elbowAngle = s.elbowAngle) ∧
    (¬ confidentBack f → (step s f).backAngle = s.backAngle) := by
  have hstep : step s f =
      downRule (upRule ((updateBackAngle (updateArmAngle s f) f).1)) f := rfl
  constructor
  · intro h
    have h1 : updateArmAngle s f = s := by
      unfold confidentElbow at h
      unfold updateArmAngle
      simp [h]
    rw [hstep, (downRule_fields _ _).2.1, (upRule_fields _).1,
      (updateBackAngle_fields _ _).2.1, h1]
  · intro h
    have h1 : ((updateBackAngle (updateArmAngle s f) f).1).backAngle =
        (updateArmAngle s f).backAngle := by
      unfold confidentBack at h
      unfold updateBackAngle
      dsimp only
      repeat' split
      all_goals simp_all
    rw [hstep, (downRule_fields _ _).2.2.1, (upRule_fields _).2.1, h1,
      (updateArmAngle_fields s f).2.1]

/-- Witness for claim C7: a frame with every score at `0.1` leaves both
stored angles at their initial values. -/
theorem stale_angle_invariant_witness :
    (step initState frameLowScores).elbowAngle = initState.elbowAngle ∧
      (step initState frameLowScores).backAngle = initState.backAngle :=
  ⟨(stale_angle_invariant initState frameLowScores).1 (by decide),
   (stale_angle_invariant initState frameLowScores).2 (by decide)⟩

/-- Sample frame whose back-angle measurement is `-90` degrees with
confident back scores.  The value `-90` is geometrically attainable by
the source's `atan2` difference: with the knee directly above the hip
the first `atan2` is `-90` degrees, and with the shoulder horizontally
to the hip's right the second is `0`. -/
def frameNeg90 : Frame :=
  { frameBack90 with backAngleMeas := -90 }

lemma tmod_neg_left (p q : ℤ) : (-p).tmod q = -(p.tmod q) := by
  simp only [Int.tmod_def, Int.neg_tdiv]
  ring

lemma tmod_bounds (p q : ℤ) (hq : 0 < q) : -q < p.tmod q ∧ p.tmod q < q := by
  rcases le_or_lt 0 p with hp | hp
  · have h1 := Int.tmod_nonneg q hp
    have h2 := Int.tmod_lt_of_pos p hq
    constructor <;> linarith
  · have h1 : (0:ℤ) ≤ -p := by linarith
    have h2 := Int.tmod_nonneg q h1
    have h3 := Int.tmod_lt_of_pos (-p) hq
    rw [tmod_neg_left] at h2 h3
    constructor <;> linarith

lemma num_eq_mul_den (a : ℚ) : (a.num : ℚ) = a * (a.den : ℚ) := by
  have hden : ((a.den : ℚ)) ≠ 0 := by
    exact_mod_cast a.den_nz
  exact (div_eq_iff hden).mp (Rat.num_div_den a)

/-- Bridge to the JavaScript specification of `%`: `jsRem a b` equals
`a - b * t` where `t` is the toward-zero quotient of the integer
fraction representing `a / b`. -/
lemma jsRem_eq (a b : ℚ) :
    jsRem a b = a - b * (Int.tdiv (a.num * b.den) ((a.den : ℤ) * b.num) : ℚ) := by
  unfold jsRem
  dsimp only
  rw [Rat.divInt_eq_div]
  have hA := num_eq_mul_den a
  have hB := num_eq_mul_den b
  have haden : ((a.den : ℚ)) ≠ 0 := by exact_mod_cast a.den_nz
  have hbden : ((b.den : ℚ)) ≠ 0 := by exact_mod_cast b.den_nz
  have hD : (((a.den : ℤ) * (b.den : ℤ) : ℤ) : ℚ) ≠ 0 := by
    push_cast
    exact mul_ne_zero haden hbden
  rw [div_eq_iff hD]
  push_cast
  rw [show (a - b * (Int.tdiv (a.num * b.den) ((a.den : ℤ) * b.num) : ℚ)) *
        ((a.den : ℚ) * (b.den : ℚ)) =
      (a * (a.den : ℚ)) * (b.den : ℚ) -
        (b * (b.den : ℚ)) * ((Int.tdiv (a.num * b.den) ((a.den : ℤ) * b.num) : ℚ) *
          (a.den : ℚ)) from by ring]
  rw [← hA, ← hB]
  ring

lemma jsRem_bounds (a b : ℚ) (hb : 0 < b) : -b < jsRem a b ∧ jsRem a b < b := by
  have hbnum : (0:ℤ) < b.num := Rat.num_pos.mpr hb
  have haden : (0:ℤ) < (a.den : ℤ) := by exact_mod_cast a.den_pos
  have hbden : (0:ℤ) < (b.den : ℤ) := by exact_mod_cast b.den_pos
  have hq : (0:ℤ) < (a.den : ℤ) * b.num := mul_pos haden hbnum
  obtain ⟨hl, hr⟩ := tmod_bounds (a.num * b.den) ((a.den : ℤ) * b.num) hq
  have hm : jsRem a b =
      Rat.divInt ((a.num * b.den).tmod ((a.den : ℤ) * b.num)) ((a.den : ℤ) * (b.den : ℤ)) := by
    unfold jsRem
    dsimp only
    congr 1
    rw [Int.tmod_def]
    ring
  have hD : (0:ℚ) < (((a.den : ℤ) * (b.den : ℤ) : ℤ) : ℚ) := by
    exact_mod_cast mul_pos haden hbden
  have hBq : b * (((a.den : ℤ) * (b.den : ℤ) : ℤ) : ℚ) = (((a.den : ℤ) * b.num : ℤ) : ℚ) := by
    push_cast
    rw [show b * ((a.den : ℚ) * (b.den : ℚ)) = (a.den : ℚ) * (b * (b.den : ℚ)) from by ring]
    rw [← num_eq_mul_den b]
  rw [hm, Rat.divInt_eq_div]
  constructor
  · rw [lt_div_iff₀ hD, show -b * (((a.den : ℤ) * (b.den : ℤ) : ℤ) : ℚ) =
        -(b * (((a.den : ℤ) * (b.den : ℤ) : ℤ) : ℚ)) from by ring, hBq]
    exact_mod_cast hl
  · rw [div_lt_iff₀ hD, hBq]
    exact_mod_cast hr

/-- Claim C6 counterexample: a confident frame whose `atan2`-difference
back angle is `-90` degrees stores `backAngle = -90`, because the
JavaScript `%` remainder keeps the dividend's sign; the stored value is
negative, not in `[0, 180)`. -/
theorem back_angle_outside_claimed_interval :
    (updateBackAngle initState frameNeg90).1.backAngle = -90 ∧
      (updateBackAngle initState frameNeg90).1.backAngle < 0 := by
  decide

lemma updateBackAngle_stores (s : PState) (f : Frame) (h : confidentBack f) :
    (updateBackAngle s f).1.backAngle = jsRem f.backAngleMeas 180 := by
  unfold confidentBack at h
  unfold updateBackAngle
  dsimp only
  repeat' split
  all_goals simp_all

/-- Claim C6 (amended): for every frame with confident back keypoints,
the stored back angle — the `atan2`-difference angle reduced with the
JavaScript `% 180` remainder, which keeps the dividend's sign — lies in
the open interval `(-180, 180)`, not in `[0, 180)`. -/
theorem stored_back_angle_range (s : PState) (f : Frame) (h : confidentBack f) :
    -180 < (updateBackAngle s f).1.backAngle ∧
      (updateBackAngle s f).1.backAngle < 180 := by
  rw [updateBackAngle_stores s f h]
  have hb := jsRem_bounds f.backAngleMeas 180 (by norm_num)
  exact ⟨by linarith [hb.1], hb.2⟩

/-- Witness for claim C6 (amended) at the concrete `-90` degree frame. -/
theorem stored_back_angle_range_witness :
    -180 < (updateBackAngle initState frameNeg90).1.backAngle ∧
      (updateBackAngle initState frameNeg90).1.backAngle < 180 :=
  stored_back_angle_range initState frameNeg90 (by decide)

end WorkingModel
